import Mathlib

/-!
# kubectl `config rename-context` and `update configmap` option validation

A shallow embedding of

* `pkg/kubectl/cmd/config/rename_context.go` (`renameContextOptions.complete`,
  `validate`, `run` and the `Run` closure of `NewCmdConfigRenameContext`), and
* `pkg/kubectl/cmd/update_configmap.go` (`UpdateConfigMapOptions.Validate`),

followed by the properties of these functions.

Conventions of the embedding:

* a Go `error` is an `Option String`: `none` is `nil`, `some msg` is an error whose
  message is `msg`;
* a Go `map[string]*Context` is an association list with pairwise distinct keys
  (`AList`): `m[k]` with the comma-ok form is `AList.lookup`, `m[k] = v` is
  `AList.insert`, `delete(m, k)` is `AList.erase`.  The entries are never written
  through their pointers by the code below, so they are kept by value;
* the document that `run` mutates in place through the pointer returned by
  `GetStartingConfig` is returned next to the error.
-/

/-- Go's builtin `len` on a string: the number of bytes of its UTF-8 encoding. -/
def len (s : String) : Nat := s.utf8ByteSize

namespace config

/-- Modelled from the spec: the Context Entry (`clientcmdapi.Context`), whose declaration is
not among the sources.  It holds a credential reference and a cluster reference; these
are the two fields the test file sets. -/
structure Context where
  AuthInfo : String
  Cluster : String
deriving DecidableEq, Repr

/-- Modelled from the spec: the Configuration Document (`clientcmdapi.Config`), whose
declaration is not among the sources.  `Contexts` maps a context name to its entry and
`CurrentContext` names the active entry; `Kind` and `APIVersion` are the other fields the
test file sets. -/
structure Config where
  Kind : String
  APIVersion : String
  Contexts : AList (fun _ : String => Context)
  CurrentContext : String
deriving DecidableEq

/-- Modelled from the spec: the Configuration Document accessor (`clientcmd.ConfigAccess`),
an interface declared outside the sources.  Each field is the result of the method of the
same name; `GetStartingConfig` yields the document loaded from the persisted file, or the
load error. -/
structure ConfigAccess where
  GetStartingConfig : Except String Config
  GetDefaultFilename : String
  IsExplicitFile : Bool
  GetExplicitFile : String

/-- The assignable options from the args (`renameContextOptions`).  The field `out` of the
source is never assigned nor read and is left out. -/
structure renameContextOptions where
  configAccess : ConfigAccess
  contextName : String
  newName : String

/-- Go's `%v` rendering of a `[]string`: the elements separated by one space, in square
brackets. -/
def fmtArgs (args : List String) : String :=
  "[" ++ " ".intercalate args ++ "]"

/-- `func (o *renameContextOptions) complete(cmd *cobra.Command) error`, with
`args = cmd.Flags().Args()`.  The receiver is a pointer: the updated options are returned
next to the error. -/
def renameContextOptions.complete (o : renameContextOptions) (args : List String) :
    Option String × renameContextOptions :=
  match args with
  | [a0, a1] => (none, { o with contextName := a0, newName := a1 })
  | _ => (some ("Unexpected args: " ++ fmtArgs args), o)

/-- `func (o renameContextOptions) validate() error`. -/
def renameContextOptions.validate (o : renameContextOptions) : Option String :=
  if len o.newName == 0 then
    some "You must specify a new non-empty context name"
  else
    none

/-- The path that `run` puts in its error messages: `GetDefaultFilename()`, replaced by
`GetExplicitFile()` when `IsExplicitFile()`. -/
def configFile (a : ConfigAccess) : String :=
  if a.IsExplicitFile then a.GetExplicitFile else a.GetDefaultFilename

/-- The message of the error `run` returns when `contextName` has no entry. -/
def notFoundMsg (contextName configFile : String) : String :=
  "cannot rename the context " ++ contextName ++ ", it's not in " ++ configFile

/-- The message of the error `run` returns when `newName` already has an entry. -/
def alreadyExistsMsg (contextName newName configFile : String) : String :=
  "cannot rename the context " ++ contextName ++ ", the context " ++ newName ++
    " already exists in " ++ configFile

/-- `func (o renameContextOptions) run() error`.  The first component is the returned
error, the second the in-memory document behind the pointer obtained from
`GetStartingConfig`, as `run` leaves it (`none` when loading failed). -/
def renameContextOptions.run (o : renameContextOptions) : Option String × Option Config :=
  match o.configAccess.GetStartingConfig with
  | .error err => (some err, none)
  | .ok config =>
    let configFile := configFile o.configAccess
    match config.Contexts.lookup o.contextName with
    | none => (some (notFoundMsg o.contextName configFile), some config)
    | some context =>
      match config.Contexts.lookup o.newName with
      | some _ =>
        (some (alreadyExistsMsg o.contextName o.newName configFile), some config)
      | none =>
        let config := { config with Contexts := config.Contexts.insert o.newName context }
        let config := { config with Contexts := config.Contexts.erase o.contextName }
        let config :=
          if config.CurrentContext = o.contextName then
            { config with CurrentContext := o.newName }
          else config
        (none, some config)

/-- What one execution of the command leaves behind. -/
structure CmdResult where
  /-- The error handed to `cmdutil.CheckErr` (the process exits non-zero), or `none`. -/
  err : Option String
  /-- The text written to `out`. -/
  out : String
  /-- The in-memory document, when one was loaded, as the command leaves it. -/
  config : Option Config
  /-- The configuration accessor after the command. -/
  configAccess : ConfigAccess

/-- Modelled from the spec: `cmdutil.CheckErr`, which is not among the sources.  On a non-nil
error the message is reported and the process exits with a non-zero code, so the rest of
the command does not run and the command ends in the state `sofar` with that error; on
`nil` the command goes on with `rest`. -/
def CheckErr (err : Option String) (sofar rest : CmdResult) : CmdResult :=
  match err with
  | some e => { sofar with err := some e }
  | none => rest

/-- The `Run` closure of `NewCmdConfigRenameContext(out, configAccess)`, applied to the
positional arguments `args`.  `quote` is Go's `%q` rendering of a string (library code).
Nothing in the closure, `complete`, `validate` or `run` calls a method that writes
through the accessor: it is handed back as it was received. -/
def NewCmdConfigRenameContext (quote : String → String) (configAccess : ConfigAccess)
    (args : List String) : CmdResult :=
  let options : renameContextOptions :=
    { configAccess := configAccess, contextName := "", newName := "" }
  let start : CmdResult :=
    { err := none, out := "", config := none, configAccess := configAccess }
  let completed := options.complete args
  let options := completed.2
  CheckErr completed.1 start <|
  CheckErr options.validate start <|
  let ran := options.run
  CheckErr ran.1 { start with config := ran.2 } <|
  { start with
    config := ran.2
    out := "Context " ++ quote options.contextName ++ " was renamed to " ++
      quote options.newName ++ ".\n" }

end config

namespace cmd

/-- The options of the update configmap command (`UpdateConfigMapOptions`). -/
structure UpdateConfigMapOptions where
  name : String
  fileSources : List String
  literalSources : List String
  envFileSource : String
deriving DecidableEq, Repr

/-- What a call of `Validate` yields. -/
inductive ValidateResult where
  /-- The call returned this error; `none` is `nil`. -/
  | returned (err : Option String)
  /-- Control reached a condition that is not a well-typed Go expression and so has no
  value. -/
  | illTyped
deriving DecidableEq, Repr

/-- `func (o UpdateConfigMapOptions) Validate() error`.  The checks of lines 132-138 are
embedded as written.  The condition of the third `if` (line 140) is
`len(o.envFileSource) == 0 && len(o.fileSources) == 0 && len(o.literalSources == 0)`:
its last operand compares a slice with `0` and takes `len` of the comparison, which is not
a well-typed expression.  The condition has no value, so control that reaches line 140
yields neither the error of line 141 nor the `return nil` of line 143. -/
def UpdateConfigMapOptions.Validate (o : UpdateConfigMapOptions) : ValidateResult :=
  if len o.name == 0 then
    .returned (some "name must be specified")
  else if len o.envFileSource > 0 &&
      (o.fileSources.length > 0 || o.literalSources.length > 0) then
    .returned (some "from-env-file cannot be combined with from-file or from-literal")
  else
    .illTyped

/-- The three validation errors of the generator, as the specification names them. -/
inductive ValidationError where
  | MissingName
  | ConflictingSources
  | NoSources
deriving DecidableEq, Repr

/-- The message the source gives for each validation error (lines 133, 137 and 141). -/
def ValidationError.message : ValidationError → String
  | .MissingName => "name must be specified"
  | .ConflictingSources => "from-env-file cannot be combined with from-file or from-literal"
  | .NoSources =>
    "At least one of the parameters must be passed: from-file, from-literal or from-env-file"

/-- The ordered reference of the specification, first failure winning: missing name, then
conflicting sources, then no sources. -/
def ValidateSpec (name : String) (fileSources literalSources : List String)
    (envFileSource : String) : Option ValidationError :=
  if name = "" then some .MissingName
  else if envFileSource ≠ "" ∧ (fileSources ≠ [] ∨ literalSources ≠ []) then
    some .ConflictingSources
  else if envFileSource = "" ∧ fileSources = [] ∧ literalSources = [] then some .NoSources
  else none

/-- The options of the specification's conflict scenario: name `cfg`, file source `a.txt`,
env file `env.list`. -/
def conflictOptions : UpdateConfigMapOptions :=
  { name := "cfg", fileSources := ["a.txt"], literalSources := [], envFileSource := "env.list" }

/-- The options `conflictOptions` without a name. -/
def namelessOptions : UpdateConfigMapOptions := { conflictOptions with name := "" }

/-- A name and no source at all: name `cfg`, every source collection empty. -/
def noSourcesOptions : UpdateConfigMapOptions :=
  { name := "cfg", fileSources := [], literalSources := [], envFileSource := "" }

/-- The options of the specification's literal scenario: name `cfg` and the two literal
sources `key1=val1`, `key2=val2`. -/
def literalOptions : UpdateConfigMapOptions :=
  { name := "cfg", fileSources := [], literalSources := ["key1=val1", "key2=val2"],
    envFileSource := "" }

end cmd

/-! ## Fixtures and predicates of the specification -/

namespace config

/-- The entry of the document of `TestRenameContext`. -/
def testContext : Context := { AuthInfo := "auth-info", Cluster := "cluster" }

/-- The document of `TestRenameContext`: one context `old-name`, current context
`old-context`. -/
def testConf : Config :=
  { Kind := "Config"
    APIVersion := "v1"
    Contexts := AList.insert "old-name" testContext ∅
    CurrentContext := "old-context" }

/-- The document of the specification's example scenario: as `testConf`, with `old-name`
the current context. -/
def scenarioConf : Config := { testConf with CurrentContext := "old-name" }

/-- A document with two contexts, `other` and `old-name`; `other` is current. -/
def twoConf : Config :=
  { testConf with
    Contexts := AList.insert "other" { AuthInfo := "auth-2", Cluster := "cluster-2" }
      testConf.Contexts
    CurrentContext := "other" }

/-- The document `testConf` after `old-name` was renamed to `new-name`. -/
def testConfRenamed : Config :=
  { testConf with Contexts := AList.insert "new-name" testContext ∅ }

/-- An accessor that loads `doc` from the default file `/home/u/.kube/config`. -/
def accessOf (doc : Config) : ConfigAccess :=
  { GetStartingConfig := .ok doc
    GetDefaultFilename := "/home/u/.kube/config"
    IsExplicitFile := false
    GetExplicitFile := "" }

/-- The options `TestRenameContext` ends up with: rename `old-name` to `new-name`. -/
def testOptions (doc : Config) : renameContextOptions :=
  { configAccess := accessOf doc, contextName := "old-name", newName := "new-name" }

/-- The validity of the current selection: `CurrentContext` is empty or is a key of
`Contexts`. -/
def CurrentContextValid (doc : Config) : Prop :=
  doc.CurrentContext = "" ∨ doc.CurrentContext ∈ doc.Contexts.keys

instance (doc : Config) : Decidable (CurrentContextValid doc) :=
  inferInstanceAs (Decidable (_ ∨ _))

/-- A stand-in for `%q` on strings that need no escaping: the string in double quotes. -/
def plainQuote (s : String) : String := "\"" ++ s ++ "\""

end config

/-! ## Auxiliary facts -/

theorem len_eq_zero_iff (s : String) : len s = 0 ↔ s = "" := by
  obtain ⟨cs⟩ := s
  cases cs with
  | nil => simp [len, String.utf8ByteSize, String.utf8ByteSize.go]
  | cons c cs =>
    have hc := Char.utf8Size_pos c
    constructor
    · intro h
      simp only [len, String.utf8ByteSize, String.utf8ByteSize.go] at h
      omega
    · intro h
      have := congrArg String.data h
      simp at this

namespace config

theorem validate_eq (o : renameContextOptions) :
    o.validate =
      if o.newName = "" then some "You must specify a new non-empty context name" else none := by
  unfold renameContextOptions.validate
  by_cases h : o.newName = ""
  · have : len o.newName = 0 := (len_eq_zero_iff _).2 h
    rw [if_pos h]
    simp [this]
  · have : len o.newName ≠ 0 := fun h0 => h ((len_eq_zero_iff _).1 h0)
    simp [h, this]

theorem run_load_error (o : renameContextOptions) (e : String)
    (hload : o.configAccess.GetStartingConfig = .error e) : o.run = (some e, none) := by
  simp [renameContextOptions.run, hload]

theorem run_not_found (o : renameContextOptions) (doc : Config)
    (hload : o.configAccess.GetStartingConfig = .ok doc)
    (hold : doc.Contexts.lookup o.contextName = none) :
    o.run = (some (notFoundMsg o.contextName (configFile o.configAccess)), some doc) := by
  simp [renameContextOptions.run, hload, hold]

theorem run_already_exists (o : renameContextOptions) (doc : Config) (c d : Context)
    (hload : o.configAccess.GetStartingConfig = .ok doc)
    (hold : doc.Contexts.lookup o.contextName = some c)
    (hnew : doc.Contexts.lookup o.newName = some d) :
    o.run = (some (alreadyExistsMsg o.contextName o.newName (configFile o.configAccess)),
      some doc) := by
  simp [renameContextOptions.run, hload, hold, hnew]

theorem run_renamed (o : renameContextOptions) (doc : Config) (c : Context)
    (hload : o.configAccess.GetStartingConfig = .ok doc)
    (hold : doc.Contexts.lookup o.contextName = some c)
    (hnew : doc.Contexts.lookup o.newName = none) :
    o.run = (none, some
      { doc with
        Contexts := (doc.Contexts.insert o.newName c).erase o.contextName
        CurrentContext :=
          if doc.CurrentContext = o.contextName then o.newName else doc.CurrentContext }) := by
  simp only [renameContextOptions.run, hload, hold, hnew]
  split <;> rfl

/-- A run that returns `nil` on a loaded document took the renaming branch. -/
theorem run_ok_inv (o : renameContextOptions) (doc : Config)
    (hload : o.configAccess.GetStartingConfig = .ok doc) (hok : o.run.1 = none) :
    ∃ c, doc.Contexts.lookup o.contextName = some c ∧
      doc.Contexts.lookup o.newName = none ∧
      o.run = (none, some
        { doc with
          Contexts := (doc.Contexts.insert o.newName c).erase o.contextName
          CurrentContext :=
            if doc.CurrentContext = o.contextName then o.newName
            else doc.CurrentContext }) := by
  cases hold : doc.Contexts.lookup o.contextName with
  | none => rw [run_not_found o doc hload hold] at hok; simp at hok
  | some c =>
    cases hnew : doc.Contexts.lookup o.newName with
    | some d => rw [run_already_exists o doc c d hload hold hnew] at hok; simp at hok
    | none => exact ⟨c, rfl, rfl, run_renamed o doc c hload hold hnew⟩

/-- A successful rename has distinct names. -/
theorem names_ne_of_lookup {m : AList (fun _ : String => Context)} {a b : String} {c : Context}
    (ha : m.lookup a = some c) (hb : m.lookup b = none) : a ≠ b := by
  rintro rfl
  rw [ha] at hb
  cases hb

theorem testOptions_run_ok : (testOptions testConf).run.1 = none := rfl

theorem scenario_run_ok : (testOptions scenarioConf).run.1 = none := rfl

end config

/-! ## Renaming a context -/

namespace config

/-- C1: when `run` succeeds on a loaded document, the resulting document has no entry under
the old name, has under the new name exactly the entry that was under the old name, maps
every other name as before, and keeps `Kind` and `APIVersion`. -/
theorem rename_moves_entry_and_frames (o : renameContextOptions) (doc : Config)
    (hload : o.configAccess.GetStartingConfig = .ok doc) (hok : o.run.1 = none) :
    ∃ after, o.run.2 = some after ∧
      after.Contexts.lookup o.contextName = none ∧
      (∃ c, doc.Contexts.lookup o.contextName = some c ∧
        after.Contexts.lookup o.newName = some c) ∧
      (∀ k, k ≠ o.contextName → k ≠ o.newName →
        after.Contexts.lookup k = doc.Contexts.lookup k) ∧
      after.Kind = doc.Kind ∧ after.APIVersion = doc.APIVersion := by
  obtain ⟨c, hold, hnew, hrun⟩ := run_ok_inv o doc hload hok
  have hne : o.contextName ≠ o.newName := names_ne_of_lookup hold hnew
  rw [hrun]
  refine ⟨_, rfl, ?_, ⟨c, hold, ?_⟩, ?_, rfl, rfl⟩
  · exact AList.lookup_erase _ _
  · show AList.lookup o.newName ((doc.Contexts.insert o.newName c).erase o.contextName) = some c
    rw [AList.lookup_erase_ne (Ne.symm hne), AList.lookup_insert]
  · intro k hk1 hk2
    show AList.lookup k ((doc.Contexts.insert o.newName c).erase o.contextName) = _
    rw [AList.lookup_erase_ne hk1, AList.lookup_insert_ne hk2]

theorem rename_moves_entry_and_frames_witness :
    (testOptions testConf).configAccess.GetStartingConfig = .ok testConf ∧
    (testOptions testConf).run.1 = none ∧
    ∃ after, (testOptions testConf).run.2 = some after ∧
      after.Contexts.lookup "old-name" = none ∧
      (∃ c, testConf.Contexts.lookup "old-name" = some c ∧
        after.Contexts.lookup "new-name" = some c) ∧
      (∀ k, k ≠ "old-name" → k ≠ "new-name" →
        after.Contexts.lookup k = testConf.Contexts.lookup k) ∧
      after.Kind = testConf.Kind ∧ after.APIVersion = testConf.APIVersion :=
  ⟨rfl, testOptions_run_ok,
    rename_moves_entry_and_frames (testOptions testConf) testConf rfl testOptions_run_ok⟩

/-- C2: when `run` succeeds on a loaded document whose current context is the old name, the
current context is the new name afterwards; when it is another string, it is that same
string afterwards. -/
theorem rename_current_context_follows (o : renameContextOptions) (doc : Config)
    (hload : o.configAccess.GetStartingConfig = .ok doc) (hok : o.run.1 = none) :
    ∃ after, o.run.2 = some after ∧
      (doc.CurrentContext = o.contextName → after.CurrentContext = o.newName) ∧
      (doc.CurrentContext ≠ o.contextName → after.CurrentContext = doc.CurrentContext) := by
  obtain ⟨c, -, -, hrun⟩ := run_ok_inv o doc hload hok
  rw [hrun]
  refine ⟨_, rfl, ?_, ?_⟩
  · intro h
    show (if doc.CurrentContext = o.contextName then o.newName else doc.CurrentContext) = _
    rw [if_pos h]
  · intro h
    show (if doc.CurrentContext = o.contextName then o.newName else doc.CurrentContext) = _
    rw [if_neg h]

theorem rename_current_context_follows_witness :
    (testOptions scenarioConf).configAccess.GetStartingConfig = .ok scenarioConf ∧
    (testOptions scenarioConf).run.1 = none ∧
    ∃ after, (testOptions scenarioConf).run.2 = some after ∧
      (scenarioConf.CurrentContext = "old-name" → after.CurrentContext = "new-name") ∧
      (scenarioConf.CurrentContext ≠ "old-name" →
        after.CurrentContext = scenarioConf.CurrentContext) :=
  ⟨rfl, scenario_run_ok,
    rename_current_context_follows (testOptions scenarioConf) scenarioConf rfl scenario_run_ok⟩

/-- C3: when the old name has no entry in the loaded document, `run` returns the not-found
error, whose message names the old name and the configuration file, and leaves the
document as it was. -/
theorem rename_missing_source_rejected (o : renameContextOptions) (doc : Config)
    (hload : o.configAccess.GetStartingConfig = .ok doc)
    (hold : doc.Contexts.lookup o.contextName = none) :
    o.run.1 = some ("cannot rename the context " ++ o.contextName ++ ", it's not in " ++
        (if o.configAccess.IsExplicitFile then o.configAccess.GetExplicitFile
          else o.configAccess.GetDefaultFilename)) ∧
      o.run.2 = some doc := by
  rw [run_not_found o doc hload hold]
  exact ⟨rfl, rfl⟩

theorem rename_missing_source_rejected_witness :
    testConf.Contexts.lookup "absent" = none ∧
    ({ testOptions testConf with contextName := "absent" }).run.1 =
        some ("cannot rename the context " ++ "absent" ++ ", it's not in " ++
          (if false then "" else "/home/u/.kube/config")) ∧
      ({ testOptions testConf with contextName := "absent" }).run.2 = some testConf :=
  ⟨rfl, rename_missing_source_rejected { testOptions testConf with contextName := "absent" }
    testConf rfl rfl⟩

/-- C4, as stated, fails: with `old-name` the only context, renaming the absent name
`absent` to `old-name` has a destination that already exists, yet `run` returns the
not-found error and not the already-exists error. -/
theorem rename_collision_claim_fails :
    ¬ ∀ (o : renameContextOptions) (doc : Config),
      o.configAccess.GetStartingConfig = .ok doc →
      (∃ d, doc.Contexts.lookup o.newName = some d) →
      o.run.1 = some ("cannot rename the context " ++ o.contextName ++ ", the context " ++
          o.newName ++ " already exists in " ++ configFile o.configAccess) ∧
        o.run.2 = some doc := by
  intro h
  have h1 := (h { testOptions testConf with contextName := "absent", newName := "old-name" }
    testConf rfl ⟨testContext, rfl⟩).1
  have h2 : ({ testOptions testConf with
      contextName := "absent", newName := "old-name" }).run.1 =
      some "cannot rename the context absent, it's not in /home/u/.kube/config" := rfl
  rw [h2] at h1
  revert h1
  decide

/-- C4, amended: when the old name has an entry and the new name already has an entry in the
loaded document, `run` returns the already-exists error, whose message names the old
name, the new name and the configuration file, and leaves the document as it was. -/
theorem rename_collision_rejected (o : renameContextOptions) (doc : Config)
    (hload : o.configAccess.GetStartingConfig = .ok doc)
    (hold : ∃ c, doc.Contexts.lookup o.contextName = some c)
    (hnew : ∃ d, doc.Contexts.lookup o.newName = some d) :
    o.run.1 = some ("cannot rename the context " ++ o.contextName ++ ", the context " ++
        o.newName ++ " already exists in " ++
        (if o.configAccess.IsExplicitFile then o.configAccess.GetExplicitFile
          else o.configAccess.GetDefaultFilename)) ∧
      o.run.2 = some doc := by
  obtain ⟨c, hc⟩ := hold
  obtain ⟨d, hd⟩ := hnew
  rw [run_already_exists o doc c d hload hc hd]
  exact ⟨rfl, rfl⟩

theorem rename_collision_rejected_witness :
    (∃ c, twoConf.Contexts.lookup "old-name" = some c) ∧
    (∃ d, twoConf.Contexts.lookup "other" = some d) ∧
    ({ testOptions twoConf with newName := "other" }).run.1 =
        some ("cannot rename the context " ++ "old-name" ++ ", the context " ++
          "other" ++ " already exists in " ++
          (if false then "" else "/home/u/.kube/config")) ∧
      ({ testOptions twoConf with newName := "other" }).run.2 = some twoConf :=
  ⟨⟨_, rfl⟩, ⟨_, rfl⟩,
    rename_collision_rejected { testOptions twoConf with newName := "other" } twoConf rfl
      ⟨_, rfl⟩ ⟨_, rfl⟩⟩

/-- C9: when `run` succeeds on a loaded document with context names `C`, the context names
afterwards are `(C \ {old}) ∪ {new}` and there are as many contexts as before; the old
name differs from the new one, is in `C`, and the new one is not. -/
theorem rename_context_name_set (o : renameContextOptions) (doc : Config)
    (hload : o.configAccess.GetStartingConfig = .ok doc) (hok : o.run.1 = none) :
    ∃ after, o.run.2 = some after ∧
      after.Contexts.keys.toFinset =
        (doc.Contexts.keys.toFinset \ {o.contextName}) ∪ {o.newName} ∧
      after.Contexts.entries.length = doc.Contexts.entries.length ∧
      o.contextName ≠ o.newName ∧
      o.contextName ∈ doc.Contexts.keys ∧ o.newName ∉ doc.Contexts.keys := by
  obtain ⟨c, hold, hnew, hrun⟩ := run_ok_inv o doc hload hok
  have hne : o.contextName ≠ o.newName := names_ne_of_lookup hold hnew
  have hin : o.contextName ∈ doc.Contexts.keys := by
    rw [← AList.mem_keys, ← AList.lookup_isSome, hold]; rfl
  have hout : o.newName ∉ doc.Contexts.keys := by
    rw [← AList.mem_keys]; exact AList.lookup_eq_none.1 hnew
  have hkeys : ((doc.Contexts.insert o.newName c).erase o.contextName).keys =
      o.newName :: doc.Contexts.keys.erase o.contextName := by
    rw [AList.keys_erase, AList.keys_insert, List.erase_of_not_mem hout,
      List.erase_cons_tail (by simpa using Ne.symm hne)]
  rw [hrun]
  refine ⟨_, rfl, ?_, ?_, hne, hin, hout⟩
  · show ((doc.Contexts.insert o.newName c).erase o.contextName).keys.toFinset = _
    rw [hkeys]
    ext k
    simp only [List.toFinset_cons, Finset.mem_insert, List.mem_toFinset, Finset.mem_union,
      Finset.mem_sdiff, Finset.mem_singleton]
    rw [(AList.keys_nodup doc.Contexts).mem_erase_iff]
    tauto
  · have hlen : ∀ m : AList (fun _ : String => Context), m.entries.length = m.keys.length :=
      fun m => by simp [AList.keys, List.keys]
    rw [hlen, hlen]
    show ((doc.Contexts.insert o.newName c).erase o.contextName).keys.length = _
    rw [hkeys, List.length_cons, List.length_erase_of_mem hin]
    have : 0 < doc.Contexts.keys.length := List.length_pos_of_mem hin
    omega

theorem rename_context_name_set_witness :
    (testOptions testConf).configAccess.GetStartingConfig = .ok testConf ∧
    (testOptions testConf).run.1 = none ∧
    ∃ after, (testOptions testConf).run.2 = some after ∧
      after.Contexts.keys.toFinset = (testConf.Contexts.keys.toFinset \ {"old-name"}) ∪
        {"new-name"} ∧
      after.Contexts.entries.length = testConf.Contexts.entries.length ∧
      "old-name" ≠ "new-name" ∧
      "old-name" ∈ testConf.Contexts.keys ∧ "new-name" ∉ testConf.Contexts.keys :=
  ⟨rfl, testOptions_run_ok,
    rename_context_name_set (testOptions testConf) testConf rfl testOptions_run_ok⟩

/-- C10: on a loaded document whose current context is empty or a key of `Contexts`, the
document `run` leaves behind has the same property: after a successful run the current
context is still empty or a key, and a failed run leaves the document as it was. -/
theorem rename_preserves_current_context_valid (o : renameContextOptions) (doc : Config)
    (hload : o.configAccess.GetStartingConfig = .ok doc) (hvalid : CurrentContextValid doc) :
    ∃ after, o.run.2 = some after ∧ CurrentContextValid after ∧
      (o.run.1 ≠ none → after = doc) := by
  cases hold : doc.Contexts.lookup o.contextName with
  | none =>
    rw [run_not_found o doc hload hold]
    exact ⟨doc, rfl, hvalid, fun _ => rfl⟩
  | some c =>
    cases hnew : doc.Contexts.lookup o.newName with
    | some d =>
      rw [run_already_exists o doc c d hload hold hnew]
      exact ⟨doc, rfl, hvalid, fun _ => rfl⟩
    | none =>
      have hne : o.contextName ≠ o.newName := names_ne_of_lookup hold hnew
      rw [run_renamed o doc c hload hold hnew]
      refine ⟨_, rfl, ?_, fun h => absurd rfl h⟩
      have hmem : ∀ k, k ∈ ((doc.Contexts.insert o.newName c).erase o.contextName).keys ↔
          k ≠ o.contextName ∧ (k = o.newName ∨ k ∈ doc.Contexts.keys) := by
        intro k
        rw [← AList.mem_keys, AList.mem_erase, AList.mem_insert, AList.mem_keys]
      show (if doc.CurrentContext = o.contextName then o.newName else doc.CurrentContext) = "" ∨
        (if doc.CurrentContext = o.contextName then o.newName else doc.CurrentContext) ∈
          ((doc.Contexts.insert o.newName c).erase o.contextName).keys
      by_cases hcur : doc.CurrentContext = o.contextName
      · rw [if_pos hcur]
        exact Or.inr ((hmem _).2 ⟨Ne.symm hne, Or.inl rfl⟩)
      · rw [if_neg hcur]
        rcases hvalid with h | h
        · exact Or.inl h
        · exact Or.inr ((hmem _).2 ⟨hcur, Or.inr h⟩)

theorem rename_preserves_current_context_valid_witness :
    CurrentContextValid scenarioConf ∧
    ∃ after, (testOptions scenarioConf).run.2 = some after ∧ CurrentContextValid after ∧
      ((testOptions scenarioConf).run.1 ≠ none → after = scenarioConf) :=
  ⟨by decide,
    rename_preserves_current_context_valid (testOptions scenarioConf) scenarioConf rfl
      (by decide)⟩

/-- C5 at the input of `TestRenameContext`: the command succeeds and reports the rename, the
in-memory document is the renamed one, yet the accessor is handed back as it was: loading
through it again yields the document that still has `old-name` and lacks `new-name`. -/
theorem rename_command_never_persists :
    (NewCmdConfigRenameContext plainQuote (accessOf testConf) ["old-name", "new-name"]).err
        = none ∧
      (NewCmdConfigRenameContext plainQuote (accessOf testConf) ["old-name", "new-name"]).out
        = "Context \"old-name\" was renamed to \"new-name\".\n" ∧
      (NewCmdConfigRenameContext plainQuote (accessOf testConf) ["old-name", "new-name"]).config
        = some testConfRenamed ∧
      (NewCmdConfigRenameContext plainQuote (accessOf testConf)
          ["old-name", "new-name"]).configAccess.GetStartingConfig = .ok testConf ∧
      testConf.Contexts.lookup "new-name" = none ∧
      testConfRenamed.Contexts.lookup "new-name" = some testContext ∧
      testConf ≠ testConfRenamed := by
  refine ⟨rfl, by decide, rfl, rfl, rfl, rfl, ?_⟩
  intro h
  have h2 := congrArg (fun d => d.Contexts.lookup "new-name") h
  revert h2
  decide

/-- C6: `validate` returns an error exactly when the new name is the empty string, whatever
the other options are, and the command, given an empty new name, ends with that error
before a document is loaded: no in-memory document exists, nothing is written to `out`
and the accessor is as it was. -/
theorem validate_rejects_exactly_empty_newName :
    (∀ o : renameContextOptions, o.validate ≠ none ↔ o.newName = "") ∧
    (∀ o : renameContextOptions, o.validate =
      if o.newName = "" then some "You must specify a new non-empty context name" else none) ∧
    (∀ (quote : String → String) (configAccess : ConfigAccess) (contextName : String),
      NewCmdConfigRenameContext quote configAccess [contextName, ""] =
        { err := some "You must specify a new non-empty context name"
          out := ""
          config := none
          configAccess := configAccess }) := by
  refine ⟨fun o => ?_, validate_eq, fun quote configAccess contextName => ?_⟩
  · rw [validate_eq]
    by_cases h : o.newName = "" <;> simp [h]
  · simp [NewCmdConfigRenameContext, renameContextOptions.complete, validate_eq, CheckErr]

end config

/-! ## Validating the options of update configmap -/

namespace cmd

/-- `Validate` with its length tests read as emptiness tests. -/
theorem Validate_eq (o : UpdateConfigMapOptions) :
    o.Validate =
      if o.name = "" then .returned (some "name must be specified")
      else if o.envFileSource ≠ "" ∧ (o.fileSources ≠ [] ∨ o.literalSources ≠ []) then
        .returned (some "from-env-file cannot be combined with from-file or from-literal")
      else .illTyped := by
  have hpos : ∀ s : String, 0 < len s ↔ s ≠ "" := fun s => by
    rw [Nat.pos_iff_ne_zero, Ne, len_eq_zero_iff]
  unfold UpdateConfigMapOptions.Validate
  simp only [beq_iff_eq, gt_iff_lt, Bool.and_eq_true, Bool.or_eq_true, decide_eq_true_eq,
    len_eq_zero_iff, hpos, List.length_pos]

/-- C7, as stated, fails: with an empty name, an env file and a file source, `Validate`
returns the missing-name error, not the source-conflict error. -/
theorem source_conflict_claim_fails :
    ¬ ∀ o : UpdateConfigMapOptions,
      o.envFileSource ≠ "" → (o.fileSources ≠ [] ∨ o.literalSources ≠ []) →
      o.Validate =
        .returned (some "from-env-file cannot be combined with from-file or from-literal") := by
  intro h
  have h1 := h namelessOptions (by decide) (by decide)
  have h2 : namelessOptions.Validate = .returned (some "name must be specified") := by decide
  rw [h2] at h1
  revert h1
  decide

/-- C7, amended: when the name is non-empty, the env file source is non-empty and at least
one of the file sources or literal sources is non-empty, `Validate` returns the
source-conflict error, whatever the values of the arguments are otherwise. -/
theorem source_conflict_when_named (o : UpdateConfigMapOptions)
    (hname : o.name ≠ "") (henv : o.envFileSource ≠ "")
    (hsrc : o.fileSources ≠ [] ∨ o.literalSources ≠ []) :
    o.Validate =
      .returned (some "from-env-file cannot be combined with from-file or from-literal") := by
  rw [Validate_eq, if_neg hname, if_pos ⟨henv, hsrc⟩]

theorem source_conflict_when_named_witness :
    (conflictOptions.name ≠ "" ∧ conflictOptions.envFileSource ≠ "" ∧
      (conflictOptions.fileSources ≠ [] ∨ conflictOptions.literalSources ≠ [])) ∧
    conflictOptions.Validate =
      .returned (some "from-env-file cannot be combined with from-file or from-literal") :=
  ⟨by decide,
    source_conflict_when_named conflictOptions (by decide) (by decide) (by decide)⟩

/-- C8 against the code: `Validate` follows the ordered reference `ValidateSpec` for the
missing-name and the conflicting-sources checks, and on every other input it reaches the
ill-typed condition of line 140 and yields no result.  With the name `cfg` and all three
sources empty the reference gives the no-sources error and `Validate` does not return it;
with the name `cfg` and two literal sources the reference gives no error and `Validate`
does not return `nil`. -/
theorem Validate_no_sources_check_ill_typed :
    (∀ o : UpdateConfigMapOptions, o.Validate =
      match ValidateSpec o.name o.fileSources o.literalSources o.envFileSource with
      | some .MissingName => .returned (some ValidationError.MissingName.message)
      | some .ConflictingSources =>
        .returned (some ValidationError.ConflictingSources.message)
      | some .NoSources => .illTyped
      | none => .illTyped) ∧
    ValidateSpec noSourcesOptions.name noSourcesOptions.fileSources
        noSourcesOptions.literalSources noSourcesOptions.envFileSource = some .NoSources ∧
      noSourcesOptions.Validate = .illTyped ∧
      noSourcesOptions.Validate ≠ .returned (some ValidationError.NoSources.message) ∧
    ValidateSpec literalOptions.name literalOptions.fileSources
        literalOptions.literalSources literalOptions.envFileSource = none ∧
      literalOptions.Validate = .illTyped ∧
      literalOptions.Validate ≠ .returned none := by
  refine ⟨fun o => ?_, by decide, by decide, by decide, by decide, by decide, by decide⟩
  rw [Validate_eq, ValidateSpec]
  split_ifs <;> rfl

end cmd
